import Mathlib

set_option maxRecDepth 100000

/-!
Verification of the stm32-uart-prog firmware programmer.

Shallow embedding, translated from the Python sources:
  * `bootloader.py`  — `STM32BL.__init__` (image parsing / validation),
    `sector_for_address`, `sync`/`sync_rate`, `baud_tune`, `get_commands`,
    `write_mem`, `cmd`;
  * `main.py`        — `program_hex` (erase/program/verify pipeline) and
    the port-open / image-validation ordering of `main`;
  * `context.py`     — `getCrc8`, the mute and enter-bootloader frames.

Serial I/O is modelled by oracles: functions giving the outcome of each
read/ack as a function of the retry indices, so that the pure control
flow of the Python code is kept exactly.
-/

/-! ## Flash geometry (`STM32BL.FLASH_SECTORS`, bootloader.py lines 29-42) -/
def FLASH_SECTORS : List (Nat × Nat) :=
  [(0x08000000, 16 * 1024),
   (0x08004000, 16 * 1024),
   (0x08008000, 16 * 1024),
   (0x0800C000, 16 * 1024),
   (0x08010000, 64 * 1024),
   (0x08020000, 128 * 1024),
   (0x08040000, 128 * 1024),
   (0x08060000, 128 * 1024),
   (0x08080000, 128 * 1024),
   (0x080A0000, 128 * 1024),
   (0x080C0000, 128 * 1024),
   (0x080E0000, 128 * 1024)]

/-- Translation of `STM32BL.sector_for_address` (bootloader.py lines 430-435): index of the
first sector whose `[start, start+size)` range contains `addr`. -/
def sector_for_address (addr : Nat) : Option Nat :=
  FLASH_SECTORS.findIdx? (fun p => decide (p.1 ≤ addr ∧ addr < p.1 + p.2))

/-! ## Firmware image (`STM32BL.__init__`, bootloader.py lines 62-89)

A hexfile is modelled as the list of `(address, byte)` cells it defines;
`IntelHex.addresses()` is the (deduplicated) list of defined addresses and
`tobinarray()` pads every gap in `[min_addr, max_addr]` with `0xFF`. -/
structure Image where
  data : List Nat
  minAddr : Nat
  maxAddr : Nat
  usedSectors : List Nat
deriving Repr

/-- Byte stored at `addr` by the hexfile, `0xFF` (the padding byte) if absent. -/
def lookupByte (cells : List (Nat × Nat)) (addr : Nat) : Nat :=
  ((cells.find? (fun c => c.1 == addr)).map Prod.snd).getD 0xFF

/-- bootloader.py line 85: `sorted({s for addr in addresses if sector_for_address(addr) is not None})`. -/
def usedSectorsFor (addresses : List Nat) : List Nat :=
  List.insertionSort (· ≤ ·) ((addresses.filterMap sector_for_address).dedup)

/-- Image construction and validation of `STM32BL.__init__`
(bootloader.py lines 76-89).  `none` means the constructor raised, i.e. the
image was rejected.  The checks appear in source order: empty data, empty
address list, no used sector, `max_addr` beyond the end of the last sector. -/
def imageInit (cells : List (Nat × Nat)) : Option Image :=
  match (cells.map Prod.fst).dedup with
  | [] => none
  | a :: rest =>
    let addresses := a :: rest
    let minA := addresses.foldl Nat.min a
    let maxA := addresses.foldl Nat.max a
    let data := (List.range' minA (maxA - minA + 1)).map (lookupByte cells)
    let used := usedSectorsFor addresses
    if used.isEmpty then none
    else if maxA > 0x080E0000 + 128 * 1024 - 1 then none
    else some ⟨data, minA, maxA, used⟩

/-! ## Python slice semantics

`bl.data[a : b]` for possibly negative bounds (main.py line 78 computes
`chunk_start - bl.min_addr`, which can be negative when the image starts
in the middle of a sector). -/
/-- Normalise one Python slice bound against a sequence of length `n`. -/
def pyBound (n : Nat) (x : Int) : Nat :=
  if x < 0 then (max (x + n) 0).toNat else min x.toNat n

/-- Python sequence slice `l[a : b]` (step 1). -/
def pySlice (l : List Nat) (a b : Int) : List Nat :=
  (l.drop (pyBound l.length a)).take (pyBound l.length b - pyBound l.length a)

/-- main.py lines 76-78: the chunk for chunk index `i` of the sector starting
at `start`: `bytes(bl.data[chunk_start - bl.min_addr : chunk_start - bl.min_addr + bl.CHUNK])`
with `chunk_start = start + i * 256`. -/
def chunkFor (img : Image) (start i : Nat) : List Nat :=
  pySlice img.data ((start : Int) + (i : Int) * 256 - (img.minAddr : Int))
    ((start : Int) + (i : Int) * 256 - (img.minAddr : Int) + 256)

/-! ## CRC-8/GSM-A and the application-layer frames (context.py) -/
/-- One inner round of `getCrc8` (context.py line 19):
`crc = ((crc << 1) ^ 0x1D if crc & 0x80 else crc << 1) & 0xFF`. -/
def crcRound (c : Nat) : Nat :=
  (if c &&& 0x80 ≠ 0 then (c <<< 1) ^^^ 0x1D else c <<< 1) &&& 0xFF

/-- The 8 inner rounds of the per-byte loop. -/
def crcRounds : Nat → Nat → Nat
  | 0, c => c
  | n + 1, c => crcRounds n (crcRound c)

/-- Translation of `getCrc8` (context.py lines 10-20): init 0; per byte XOR into the crc,
then 8 rounds of `crcRound`. -/
def getCrc8 (buffer : List Nat) : Nat :=
  buffer.foldl (fun crc cell => crcRounds 8 (crc ^^^ cell)) 0

/-- One round as worded by the specification: shift left and XOR `0x1D`
iff the most significant bit (bit 7) was set, masking to 8 bits. -/
def gsmaRound (c : Nat) : Nat :=
  (if Nat.testBit c 7 then (c <<< 1) ^^^ 0x1D else c <<< 1) % 256

/-- CRC-8/GSM-A as worded by the specification: initial value 0; for each
byte XOR into the CRC, then 8 times `gsmaRound`. -/
def crc8GsmA (buffer : List Nat) : Nat :=
  buffer.foldl (fun crc cell => gsmaRound^[8] (crc ^^^ cell)) 0

/-- The 9 bytes `struct.pack("<BBHBBBBB", 0xAA, 1, dev_id, 3, cmd, 0, 0, 0)`
(context.py lines 48-58 and 104-114): preamble, length/10, little-endian
16-bit device id, command type 3, command byte, three reserved zeros. -/
def packFrame (dev_id cmd : Nat) : List Nat :=
  [0xAA, 0x01, dev_id % 256, dev_id / 256 % 256, 0x03, cmd, 0, 0, 0]

/-- The 10-byte broadcast mute frame transmitted by `be_quiet`
(context.py lines 31 and 44-63): `dev_id = 0xFFFF`, command `0xDA`,
CRC over the preceding 9 bytes appended. -/
def muteFrame : List Nat :=
  packFrame 0xFFFF 0xDA ++ [getCrc8 (packFrame 0xFFFF 0xDA)]

/-- The 10-byte unicast enter-bootloader frame transmitted by
`enter_bootloader` (context.py lines 104-119): command `0xDF`. -/
def enterBootloaderFrame (dev_id : Nat) : List Nat :=
  packFrame dev_id 0xDF ++ [getCrc8 (packFrame dev_id 0xDF)]

/-! ## Retry loops

The Python `for attempt in range(n)` retry idiom, with `break` on success
and an `else:` clause when every attempt failed. -/
/-- Runs `ok` on attempt indices `i, i+1, ...` for at most `fuel` attempts;
returns how many attempts were executed and whether one succeeded. -/
def tryCount (ok : Nat → Bool) : Nat → Nat → Nat × Bool
  | _, 0 => (0, false)
  | i, fuel + 1 =>
    if ok i then (1, true)
    else
      let r := tryCount ok (i + 1) fuel
      (r.1 + 1, r.2)

/-- Whether a `for attempt in range(n)` retry loop succeeds. -/
def tryLoop (n : Nat) (ok : Nat → Bool) : Bool :=
  (tryCount ok 0 n).2

/-- Translation of `STM32BL.cmd` (bootloader.py lines 380-389): sends `(c, c ^ 0xFF)` and
reads the ACK, retried up to 3 times; `ack a` is the ACK outcome of
attempt `a`. -/
def cmd (ack : Nat → Bool) : Bool :=
  tryLoop 3 ack

/-- Length of the initial streak of successful iterations: the Python
pattern `for k in range(fuel): if not ok(k): break` with a counter
incremented after each successful iteration. -/
def prefixCount (ok : Nat → Bool) : Nat → Nat → Nat
  | _, 0 => 0
  | i, fuel + 1 => if ok i then prefixCount ok (i + 1) fuel + 1 else 0

/-! ## `get_commands` (bootloader.py lines 294-309) -/
structure GetEnv where
  cmdAck : Nat → Bool
  lenByte : List Nat
  payload : List Nat
  finalAck : Bool

/-- Translation of `STM32BL.get_commands`: GET command, length byte, `len + 1` payload
bytes, final ACK. The final `_read_ack()` on line 308 is executed but its
result is discarded by the source, so `cmds` is returned regardless. -/
def get_commands (e : GetEnv) : List Nat :=
  if cmd e.cmdAck = false then []
  else
    match e.lenByte with
    | [] => []
    | n :: _ =>
      if e.payload.length ≠ n + 1 then []
      else e.payload

/-! ## `write_mem` (bootloader.py lines 342-355) -/
inductive PyErr where
  | structError
  | valueError
deriving DecidableEq, Repr

structure WriteEnv where
  cmdAck : Nat → Bool
  addrAck : Bool
  finalAck : Bool

/-- Translation of `STM32BL.write_mem` with Python exceptions made explicit: `.error` is a
raised exception, `.ok b` the returned boolean. `struct.pack(">I", addr)`
(line 346) raises for `addr ≥ 2^32`; the length byte
`bytes([len(data) - 1])` (line 352) raises `ValueError` unless
`1 ≤ len(data) ≤ 256`; `data` itself is a Python `bytes`, so packing its
cells never raises. -/
def write_mem (e : WriteEnv) (addr : Nat) (data : List Nat) : Except PyErr Bool :=
  if cmd e.cmdAck = false then .ok false
  else if addr ≥ 2 ^ 32 then .error .structError
  else if e.addrAck = false then .ok false
  else if data.length = 0 ∨ data.length > 256 then .error .valueError
  else .ok e.finalAck

/-! ## Baud sweeps (bootloader.py `sync`/`sync_rate` and `baud_tune`) -/
/-- Per-iteration success test of the activation-based sweep (bootloader.py
lines 150-153): some response arrived and its first byte is ACK `0x79` or
NACK `0x1F`. -/
def syncIterOk (r : List Nat) : Bool :=
  match r with
  | [] => false
  | b :: _ => b == 0x79 || b == 0x1F

/-- Translation of `sync_rate` (bootloader.py lines 136-154): iterate at most
`tune_requests` times, stop at the first failed iteration, divide the
number of completed iterations by `tune_requests`. `resp k` is the
`recv_all()` result of iteration `k`. -/
def sync_rate (resp : Nat → List Nat) (tune_requests : Nat) : ℚ :=
  (prefixCount (fun k => syncIterOk (resp k)) 0 tune_requests : ℚ) / tune_requests

/-- The opcode set `set(COMMAND_SET.values())` (bootloader.py lines 44-60, 221). -/
def COMMAND_SET : List Nat := [0x00, 0x02, 0x11, 0x21, 0x31, 0x44]

/-- Per-iteration success test of the command-based sweep (bootloader.py
lines 264-267): `get_commands()` returned a non-empty list containing
every required opcode. -/
def tuneIterOk (cmds : List Nat) : Bool :=
  !cmds.isEmpty && COMMAND_SET.all (fun c => cmds.contains c)

/-- Per-candidate response counting of `baud_tune` (bootloader.py lines
262-269): the same break-at-first-failure loop, over `get_commands`
results `cmdsAt k`. -/
def tuneRate (cmdsAt : Nat → List Nat) (tune_requests : Nat) : ℚ :=
  (prefixCount (fun k => tuneIterOk (cmdsAt k)) 0 tune_requests : ℚ) / tune_requests

/-- Link/engine state mutated by `baud_tune`. -/
structure TuneState where
  attempts_cmd : Nat
  timeout : ℚ
  baudrate : Nat
  ser_baud : Nat
deriving DecidableEq, Repr

/-- The temporary settings installed at the top of `baud_tune`
(bootloader.py lines 223-227): `attempts_cmd = 1` and
`ser.timeout = (11 * 30 / orig_baud) * 1.3`. -/
def tuneSetup (st : TuneState) : TuneState :=
  { st with attempts_cmd := 1, timeout := 11 * 30 / (st.ser_baud : ℚ) * (13 / 10) }

/-- The candidate sweep of `baud_tune` (bootloader.py lines 246-283): set
`self.baudrate = ser.baudrate = baud`, measure the rate, lock immediately
on rate 1.0, otherwise keep the best candidate with
`rate ≥ threshold ∧ rate > best_rate`; raise (`.error`) when no candidate
qualified. `cmdsAt baud k` is the `get_commands` result at candidate
`baud`, iteration `k`. -/
def tuneSweep (cmdsAt : Nat → Nat → List Nat) (tune_requests : Nat) (thr : ℚ) :
    List Nat → TuneState → Option (Nat × ℚ) → TuneState × Except Unit Nat
  | [], st, best =>
    match best with
    | some br => ({ st with baudrate := br.1, ser_baud := br.1 }, .ok br.1)
    | none => (st, .error ())
  | baud :: rest, st, best =>
    let st1 := { st with baudrate := baud, ser_baud := baud }
    let rate := tuneRate (cmdsAt baud) tune_requests
    if rate = 1 then (st1, .ok baud)
    else if thr ≤ rate ∧ (best.map Prod.snd).getD 0 < rate then
      tuneSweep cmdsAt tune_requests thr rest st1 (some (baud, rate))
    else tuneSweep cmdsAt tune_requests thr rest st1 best

/-- Translation of `baud_tune` (bootloader.py lines 212-292) as a state transformer. The
`finally` block (lines 284-286) runs on every path: it restores
`attempts_cmd` and sets `ser.timeout = (11 * 256 / self.baudrate) * 1.3`
from the baudrate the sweep left behind. Candidate generation (lines
233-240) rounds Python floats; the candidate list is a parameter here,
which is sound because the claims in scope do not depend on the candidate
values. -/
def baud_tune (st : TuneState) (cands : List Nat) (cmdsAt : Nat → Nat → List Nat)
    (tune_requests : Nat) (thr : ℚ) : TuneState × Except Unit Nat :=
  let r := tuneSweep cmdsAt tune_requests thr cands (tuneSetup st) none
  ({ r.1 with attempts_cmd := st.attempts_cmd,
              timeout := 11 * 256 / (r.1.baudrate : ℚ) * (13 / 10) }, r.2)

/-! ## The programming pipeline (`program_hex`, main.py lines 50-142)

Serial outcomes are an oracle indexed by the loop counters, so retries can
observe different results: `eraseOk s ea` is the `erase_sector` outcome for
sector `s` on erase attempt `ea`; `writeOk s ea i a` the `write_mem`
outcome for chunk `i` on inner attempt `a` during erase attempt `ea`;
`readBackOk s ea i a` whether `read_mem` returned bytes equal to the
chunk; `goOk a` the `start_application` outcome. -/
structure Oracle where
  eraseOk : Nat → Nat → Bool
  writeOk : Nat → Nat → Nat → Nat → Bool
  readBackOk : Nat → Nat → Nat → Nat → Bool
  goOk : Nat → Bool

/-- Session configuration: `attempts_erase` (outer) and `attempts_cmd`
(inner), main.py lines 163-164. -/
structure Cfg where
  attempts_erase : Nat
  attempts_cmd : Nat

inductive Status where
  | Success
  | Warning
  | Fail
deriving DecidableEq, Repr

/-- Outcome of processing one chunk (main.py lines 75-116): whether the
chunk completed, how many progress units it credited, and how many write
and verify transactions were issued. -/
structure ChunkOut where
  ok : Bool
  credit : Nat
  writeOps : Nat
  verifyOps : Nat
deriving DecidableEq, Repr

/-- One chunk of the sector inner loop (main.py lines 75-116): an all-0xFF
chunk is credited and skipped (lines 79-82); otherwise the write is retried
up to `attempts_cmd` times, then the verify, each `for/else` marking the
attempt failed on exhaustion. -/
def chunkStep (attempts_cmd : Nat) (wOk vOk : Nat → Bool) (chunk : List Nat) : ChunkOut :=
  if chunk.all (fun b => b == 0xFF) then ⟨true, 1, 0, 0⟩
  else if (tryCount wOk 0 attempts_cmd).2 then
    if (tryCount vOk 0 attempts_cmd).2 then
      ⟨true, 1, (tryCount wOk 0 attempts_cmd).1, (tryCount vOk 0 attempts_cmd).1⟩
    else ⟨false, 0, (tryCount wOk 0 attempts_cmd).1, (tryCount vOk 0 attempts_cmd).1⟩
  else ⟨false, 0, (tryCount wOk 0 attempts_cmd).1, 0⟩

/-- The chunk walk of one erase attempt (main.py lines 73-116), over the
chunk indices `idxs`, with `acc` progress units credited so far in this
attempt: returns `(all_ok, credited)`, stopping at the first failed
chunk. -/
def runChunks (cfg : Cfg) (o : Oracle) (img : Image) (s ea start : Nat) :
    List Nat → Nat → Bool × Nat
  | [], acc => (true, acc)
  | i :: rest, acc =>
    let c := chunkStep cfg.attempts_cmd (o.writeOk s ea i) (o.readBackOk s ea i)
      (chunkFor img start i)
    if c.ok then runChunks cfg o img s ea start rest (acc + c.credit)
    else (false, acc)

/-- The erase-attempt loop for one sector (main.py lines 62-130), started
at erase attempt `ea` with `fuel` attempts left: returns
`(done, credited, warn)` where `credited` is the net progress this sector
contributed (a failed attempt is rolled back by
`total_bar.update(-credited)`, line 123, so it nets zero) and `warn`
records whether any executed attempt failed (lines 68, 97, 114). `fuel`
running out is the `for/else` on line 128: the sector failed permanently. -/
def runSector (cfg : Cfg) (o : Oracle) (img : Image) (s start nchunks : Nat) :
    Nat → Nat → Bool × Nat × Bool
  | _, 0 => (false, 0, false)
  | ea, fuel + 1 =>
    if o.eraseOk s ea then
      let r := runChunks cfg o img s ea start (List.range nchunks) 0
      if r.1 then (true, r.2, false)
      else
        let next := runSector cfg o img s start nchunks (ea + 1) fuel
        (next.1, next.2.1, true)
    else
      let next := runSector cfg o img s start nchunks (ea + 1) fuel
      (next.1, next.2.1, true)

/-- The erase-attempt loop of one sector over the whole budget, with the
geometry `FLASH_SECTORS[s]` looked up as on main.py line 59. -/
def sectorRun (cfg : Cfg) (o : Oracle) (img : Image) (s : Nat) : Bool × Nat × Bool :=
  runSector cfg o img s (FLASH_SECTORS.getD s (0, 0)).1
    ((FLASH_SECTORS.getD s (0, 0)).2 / 256) 0 cfg.attempts_erase

/-- The sector loop plus the final GO (main.py lines 57-142): returns the
target status and the final value of the shared progress counter. A sector
that exhausts its erase attempts returns `Fail` immediately (line 130);
afterwards `start_application` is retried up to `attempts_cmd` times
(lines 133-140); the status is `Warning` iff `warn_detected` was ever
set. -/
def runSectors (cfg : Cfg) (o : Oracle) (img : Image) :
    List Nat → Nat → Bool → Status × Nat
  | [], prog, warn =>
    if tryLoop cfg.attempts_cmd o.goOk then
      ((if warn then Status.Warning else Status.Success), prog)
    else (Status.Fail, prog)
  | s :: rest, prog, warn =>
    let r := sectorRun cfg o img s
    if r.1 then runSectors cfg o img rest (prog + r.2.1) (warn || r.2.2)
    else (Status.Fail, prog + r.2.1)

/-- Translation of `program_hex` (main.py lines 50-142) for one target, starting with an
empty progress bar and no warning recorded. -/
def program_hex (cfg : Cfg) (o : Oracle) (img : Image) : Status × Nat :=
  runSectors cfg o img img.usedSectors 0 false

/-- One erase attempt starting at sector offset `start` with `nchunks`
chunks succeeds end-to-end: the erase command is ACKed and every chunk
completes. -/
def attemptAt (cfg : Cfg) (o : Oracle) (img : Image) (s start nchunks ea : Nat) : Bool :=
  o.eraseOk s ea && (runChunks cfg o img s ea start (List.range nchunks) 0).1

/-- One erase attempt of sector `s` succeeds end-to-end. -/
def attemptOK (cfg : Cfg) (o : Oracle) (img : Image) (s ea : Nat) : Bool :=
  attemptAt cfg o img s (FLASH_SECTORS.getD s (0, 0)).1
    ((FLASH_SECTORS.getD s (0, 0)).2 / 256) ea

/-- Sector `s` completes within the erase-attempt budget. -/
def completes (cfg : Cfg) (o : Oracle) (img : Image) (s : Nat) : Bool :=
  (List.range cfg.attempts_erase).any (fun ea => attemptOK cfg o img s ea)

/-- Number of 256-byte chunks of sector `s` (main.py line 60). -/
def chunksOf (s : Nat) : Nat :=
  (FLASH_SECTORS.getD s (0, 0)).2 / 256

/-- Total chunk count over a list of sectors. -/
def chunkSum (l : List Nat) : Nat :=
  (l.map chunksOf).sum

/-! ## The `main` ordering around image validation (main.py lines 156-309) -/
inductive MainEv where
  | portOpen
  | imageRejected
  | imageAccepted
  | serialTx
deriving DecidableEq, Repr

/-- The event order of `main` around image validation: the hexfile
suffix/existence checks (lines 178-181) are pure; the serial port is
opened on line 203; the `STM32BL` constructor parses and validates the
image on lines 205-208, raising on a bad image, which aborts `main`
before the per-target loop — so before anything is transmitted; only an
accepted image reaches the per-target loop, which does transmit. -/
def mainPrelude (cells : List (Nat × Nat)) : List MainEv :=
  [MainEv.portOpen] ++
    (match imageInit cells with
     | none => [MainEv.imageRejected]
     | some _ => [MainEv.imageAccepted, MainEv.serialTx])

/-! ## Specification-side comparison definitions and concrete instances -/
/-- The used-sector list that the specification's words prescribe: every
sector index whose address range intersects `[lo, hi]`. Written from the
spec, for comparison with `usedSectorsFor`. -/
def sectorsIntersecting (lo hi : Nat) : List Nat :=
  (List.range FLASH_SECTORS.length).filter
    (fun i => decide ((FLASH_SECTORS.getD i (0, 0)).1 ≤ hi ∧
      lo ≤ (FLASH_SECTORS.getD i (0, 0)).1 + (FLASH_SECTORS.getD i (0, 0)).2 - 1))

/-- The per-iteration success count that claim C5 describes: successes
among all `n` iterations, not only the initial streak. Written from the
spec, for comparison with `prefixCount`. -/
def iterOkCount (ok : Nat → Bool) (n : Nat) : Nat :=
  ((List.range n).filter ok).length

/-- Image of a hexfile defining the single byte `0x00` at `0x08000000`. -/
def oneByteImage : Image :=
  (imageInit [(0x08000000, 0x00)]).getD ⟨[], 0, 0, []⟩

/-- Image of a hexfile with bytes only at `0x08000000` and `0x08020000`. -/
def gapImage : Image :=
  (imageInit [(0x08000000, 0x00), (0x08020000, 0x00)]).getD ⟨[], 0, 0, []⟩

/-- Oracle where the write of chunk 0 fails once and then succeeds, and
everything else succeeds immediately. -/
def retryOracle : Oracle :=
  { eraseOk := fun _ _ => true
    writeOk := fun _ _ _ a => a == 1
    readBackOk := fun _ _ _ _ => true
    goOk := fun _ => true }

/-- Responses for the sync sweep: iteration 0 yields nothing, every later
iteration yields an ACK byte. -/
def failFirstResp (k : Nat) : List Nat :=
  if k == 0 then [] else [0x79]

example : sector_for_address 0x08000000 = some 0 := by decide

example : sector_for_address 0x08020000 = some 5 := by decide

example : sector_for_address 0x08100000 = none := by decide

example : usedSectorsFor [0x08020000, 0x08000000] = [0, 5] := by decide

example : pySlice [1, 2, 3] 0 256 = [1, 2, 3] := by decide

example : pySlice [1, 2, 3] (-256) 0 = [] := by decide

theorem crcRound_eq_gsmaRound : ∀ c : Nat, crcRound c = gsmaRound c := by
  intro c
  have hbit : c &&& 0x80 ≠ 0 ↔ Nat.testBit c 7 := by
    have h := Nat.and_two_pow c 7
    norm_num at h
    rw [show (0x80 : Nat) = 128 from rfl, h]
    cases Nat.testBit c 7 <;> simp
  have hmask : ∀ x : Nat, x &&& 0xFF = x % 256 := by
    intro x
    have := Nat.and_pow_two_sub_one_eq_mod x 8
    norm_num at this
    exact this
  unfold crcRound gsmaRound
  by_cases h : Nat.testBit c 7
  · rw [if_pos (hbit.mpr h), if_pos h, hmask]
  · rw [if_neg (fun hc => h (hbit.mp hc)), if_neg h, hmask]

theorem crcRounds_eq_iterate : ∀ n c, crcRounds n c = gsmaRound^[n] c := by
  intro n
  induction n with
  | zero => intro c; rfl
  | succ k ih =>
    intro c
    rw [show crcRounds (k + 1) c = crcRounds k (crcRound c) from rfl,
      Function.iterate_succ_apply, ih, crcRound_eq_gsmaRound]

theorem getCrc8_eq_crc8GsmA : ∀ buffer : List Nat, getCrc8 buffer = crc8GsmA buffer := by
  intro buffer
  unfold getCrc8 crc8GsmA
  congr 1
  funext crc cell
  exact crcRounds_eq_iterate 8 (crc ^^^ cell)

theorem tryCount_true_iff (ok : Nat → Bool) :
    ∀ fuel i, (tryCount ok i fuel).2 = true ↔ ∃ k < fuel, ok (i + k) = true := by
  intro fuel
  induction fuel with
  | zero => intro i; simp [tryCount]
  | succ f ih =>
    intro i
    by_cases h : ok i
    · simp only [tryCount, if_pos h]
      constructor
      · intro _
        exact ⟨0, Nat.succ_pos f, by simpa using h⟩
      · intro _
        trivial
    · simp only [tryCount, if_neg h]
      rw [ih (i + 1)]
      constructor
      · rintro ⟨k, hk, hok⟩
        exact ⟨k + 1, by omega, by rw [show i + (k + 1) = i + 1 + k by omega]; exact hok⟩
      · rintro ⟨k, hk, hok⟩
        match k with
        | 0 => exact absurd (by simpa using hok) h
        | k + 1 => exact ⟨k, by omega, by rw [show i + 1 + k = i + (k + 1) by omega]; exact hok⟩

theorem tryLoop_true_iff (n : Nat) (ok : Nat → Bool) :
    tryLoop n ok = true ↔ ∃ k < n, ok k = true := by
  unfold tryLoop
  rw [tryCount_true_iff]
  simp

theorem prefixCount_le (ok : Nat → Bool) : ∀ fuel i, prefixCount ok i fuel ≤ fuel := by
  intro fuel
  induction fuel with
  | zero => intro i; simp [prefixCount]
  | succ f ih =>
    intro i
    by_cases h : ok i
    · simp only [prefixCount, if_pos h]
      exact Nat.succ_le_succ (ih (i + 1))
    · simp [prefixCount, if_neg h]

theorem prefixCount_ok (ok : Nat → Bool) :
    ∀ fuel i k, k < prefixCount ok i fuel → ok (i + k) = true := by
  intro fuel
  induction fuel with
  | zero => intro i k hk; simp [prefixCount] at hk
  | succ f ih =>
    intro i k hk
    by_cases h : ok i
    · simp only [prefixCount, if_pos h] at hk
      match k with
      | 0 => simpa using h
      | k + 1 =>
        rw [show i + (k + 1) = i + 1 + k by omega]
        exact ih (i + 1) k (by omega)
    · simp [prefixCount, if_neg h] at hk

theorem prefixCount_stop (ok : Nat → Bool) :
    ∀ fuel i, prefixCount ok i fuel < fuel → ok (i + prefixCount ok i fuel) = false := by
  intro fuel
  induction fuel with
  | zero => intro i h; simp at h
  | succ f ih =>
    intro i h
    by_cases hok : ok i
    · simp only [prefixCount, if_pos hok] at h ⊢
      rw [show i + (prefixCount ok (i + 1) f + 1) = i + 1 + prefixCount ok (i + 1) f by omega]
      exact ih (i + 1) (by omega)
    · simp only [prefixCount, if_neg hok, Nat.add_zero]
      exact Bool.of_not_eq_true hok

theorem chunkStep_ok_credit (ac : Nat) (w v : Nat → Bool) (ch : List Nat) :
    (chunkStep ac w v ch).ok = true → (chunkStep ac w v ch).credit = 1 := by
  unfold chunkStep
  split_ifs <;> simp

theorem runChunks_true_credit (cfg : Cfg) (o : Oracle) (img : Image) (s ea start : Nat) :
    ∀ idxs acc, (runChunks cfg o img s ea start idxs acc).1 = true →
      (runChunks cfg o img s ea start idxs acc).2 = acc + idxs.length := by
  intro idxs
  induction idxs with
  | nil => intro acc _; simp [runChunks]
  | cons i rest ih =>
    intro acc h
    unfold runChunks at h ⊢
    by_cases hc :
      (chunkStep cfg.attempts_cmd (o.writeOk s ea i) (o.readBackOk s ea i)
        (chunkFor img start i)).ok = true
    · rw [if_pos hc] at h ⊢
      rw [ih _ h, chunkStep_ok_credit _ _ _ _ hc]
      simp
      omega
    · rw [if_neg hc] at h
      simp at h

theorem runSector_spec (cfg : Cfg) (o : Oracle) (img : Image) (s start nchunks : Nat) :
    ∀ fuel ea,
      ((runSector cfg o img s start nchunks ea fuel).1 = true ↔
        ∃ k < fuel, attemptAt cfg o img s start nchunks (ea + k) = true) ∧
      ((runSector cfg o img s start nchunks ea fuel).1 = true →
        (runSector cfg o img s start nchunks ea fuel).2.1 = nchunks ∧
        (runSector cfg o img s start nchunks ea fuel).2.2
          = !attemptAt cfg o img s start nchunks ea) ∧
      ((runSector cfg o img s start nchunks ea fuel).1 = false →
        (runSector cfg o img s start nchunks ea fuel).2.1 = 0) := by
  intro fuel
  induction fuel with
  | zero =>
    intro ea
    refine ⟨by simp [runSector], by simp [runSector], by simp [runSector]⟩
  | succ f ih =>
    intro ea
    by_cases he : o.eraseOk s ea
    · by_cases hr : (runChunks cfg o img s ea start (List.range nchunks) 0).1 = true
      · -- the attempt at `ea` succeeds outright
        have hstep : runSector cfg o img s start nchunks ea (f + 1)
            = (true, (runChunks cfg o img s ea start (List.range nchunks) 0).2, false) := by
          conv_lhs => unfold runSector
          rw [if_pos he, if_pos hr]
        have hatt : attemptAt cfg o img s start nchunks ea = true := by
          unfold attemptAt
          rw [he, hr]
          rfl
        rw [hstep]
        refine ⟨?_, ?_, by simp⟩
        · constructor
          · intro _
            exact ⟨0, Nat.succ_pos f, by simpa using hatt⟩
          · intro _
            rfl
        · intro _
          have := runChunks_true_credit cfg o img s ea start (List.range nchunks) 0 hr
          simp at this
          exact ⟨this, by rw [hatt]; rfl⟩
      · -- erase ACKed but a chunk failed: recurse with warn set
        have hstep : runSector cfg o img s start nchunks ea (f + 1)
            = ((runSector cfg o img s start nchunks (ea + 1) f).1,
               (runSector cfg o img s start nchunks (ea + 1) f).2.1, true) := by
          conv_lhs => unfold runSector
          rw [if_pos he, if_neg hr]
        have hatt : attemptAt cfg o img s start nchunks ea = false := by
          unfold attemptAt
          rw [Bool.and_eq_false_iff]
          right
          exact Bool.of_not_eq_true hr
        rw [hstep]
        obtain ⟨ih1, ih2, ih3⟩ := ih (ea + 1)
        refine ⟨?_, ?_, ?_⟩
        · simp only []
          rw [ih1]
          constructor
          · rintro ⟨k, hk, hok⟩
            exact ⟨k + 1, by omega, by rw [show ea + (k + 1) = ea + 1 + k by omega]; exact hok⟩
          · rintro ⟨k, hk, hok⟩
            match k with
            | 0 => exact absurd hok (by simp [hatt])
            | k + 1 =>
              exact ⟨k, by omega, by rw [show ea + 1 + k = ea + (k + 1) by omega]; exact hok⟩
        · intro hdone
          simp only [] at hdone
          exact ⟨(ih2 hdone).1, by rw [hatt]; rfl⟩
        · intro hdone
          simp only [] at hdone
          exact ih3 hdone
    · -- the erase command itself failed: recurse with warn set
      have hstep : runSector cfg o img s start nchunks ea (f + 1)
          = ((runSector cfg o img s start nchunks (ea + 1) f).1,
             (runSector cfg o img s start nchunks (ea + 1) f).2.1, true) := by
        conv_lhs => unfold runSector
        rw [if_neg he]
      have hatt : attemptAt cfg o img s start nchunks ea = false := by
        unfold attemptAt
        rw [Bool.and_eq_false_iff]
        left
        exact Bool.of_not_eq_true he
      rw [hstep]
      obtain ⟨ih1, ih2, ih3⟩ := ih (ea + 1)
      refine ⟨?_, ?_, ?_⟩
      · simp only []
        rw [ih1]
        constructor
        · rintro ⟨k, hk, hok⟩
          exact ⟨k + 1, by omega, by rw [show ea + (k + 1) = ea + 1 + k by omega]; exact hok⟩
        · rintro ⟨k, hk, hok⟩
          match k with
          | 0 => exact absurd hok (by simp [hatt])
          | k + 1 =>
            exact ⟨k, by omega, by rw [show ea + 1 + k = ea + (k + 1) by omega]; exact hok⟩
      · intro hdone
        simp only [] at hdone
        exact ⟨(ih2 hdone).1, by rw [hatt]; rfl⟩
      · intro hdone
        simp only [] at hdone
        exact ih3 hdone

/-- The first projection of `sectorRun` is exactly `completes`. -/
theorem sectorRun_done_eq_completes (cfg : Cfg) (o : Oracle) (img : Image) (s : Nat) :
    (sectorRun cfg o img s).1 = completes cfg o img s := by
  unfold sectorRun
  have h := (runSector_spec cfg o img s (FLASH_SECTORS.getD s (0, 0)).1
    ((FLASH_SECTORS.getD s (0, 0)).2 / 256) cfg.attempts_erase 0).1
  have h2 : completes cfg o img s = true ↔
      ∃ k < cfg.attempts_erase,
        attemptAt cfg o img s (FLASH_SECTORS.getD s (0, 0)).1
          ((FLASH_SECTORS.getD s (0, 0)).2 / 256) (0 + k) = true := by
    unfold completes attemptOK
    rw [List.any_eq_true]
    constructor
    · rintro ⟨ea, hea, hok⟩
      exact ⟨ea, List.mem_range.mp hea, by simpa using hok⟩
    · rintro ⟨k, hk, hok⟩
      exact ⟨k, List.mem_range.mpr hk, by simpa using hok⟩
  exact Bool.eq_iff_iff.mpr (h.trans h2.symm)

theorem sectorRun_credit_true (cfg : Cfg) (o : Oracle) (img : Image) (s : Nat)
    (h : (sectorRun cfg o img s).1 = true) :
    (sectorRun cfg o img s).2.1 = chunksOf s := by
  have := ((runSector_spec cfg o img s (FLASH_SECTORS.getD s (0, 0)).1
    ((FLASH_SECTORS.getD s (0, 0)).2 / 256) cfg.attempts_erase 0).2.1 h).1
  exact this

theorem sectorRun_credit_false (cfg : Cfg) (o : Oracle) (img : Image) (s : Nat)
    (h : (sectorRun cfg o img s).1 = false) :
    (sectorRun cfg o img s).2.1 = 0 := by
  exact (runSector_spec cfg o img s (FLASH_SECTORS.getD s (0, 0)).1
    ((FLASH_SECTORS.getD s (0, 0)).2 / 256) cfg.attempts_erase 0).2.2 h

theorem sectorRun_warn (cfg : Cfg) (o : Oracle) (img : Image) (s : Nat)
    (h : (sectorRun cfg o img s).1 = true) :
    (sectorRun cfg o img s).2.2 = !attemptOK cfg o img s 0 := by
  have := ((runSector_spec cfg o img s (FLASH_SECTORS.getD s (0, 0)).1
    ((FLASH_SECTORS.getD s (0, 0)).2 / 256) cfg.attempts_erase 0).2.1 h).2
  exact this

/-- Unfolding step of `runSectors` at a cons cell. -/
theorem runSectors_cons (cfg : Cfg) (o : Oracle) (img : Image) (s : Nat)
    (rest : List Nat) (prog : Nat) (warn : Bool) :
    runSectors cfg o img (s :: rest) prog warn
      = (if (sectorRun cfg o img s).1 then
          runSectors cfg o img rest (prog + (sectorRun cfg o img s).2.1)
            (warn || (sectorRun cfg o img s).2.2)
        else (Status.Fail, prog + (sectorRun cfg o img s).2.1)) := by
  rfl

/-- The final progress counter equals the number of chunks of the sectors
completed before the run stopped. -/
theorem runSectors_progress (cfg : Cfg) (o : Oracle) (img : Image) :
    ∀ (l : List Nat) (prog : Nat) (warn : Bool),
      (runSectors cfg o img l prog warn).2
        = prog + chunkSum (l.takeWhile (completes cfg o img)) := by
  intro l
  induction l with
  | nil =>
    intro prog warn
    unfold runSectors
    split_ifs <;> simp [chunkSum]
  | cons s rest ih =>
    intro prog warn
    rw [runSectors_cons]
    by_cases hc : completes cfg o img s = true
    · have h1 : (sectorRun cfg o img s).1 = true := by
        rw [sectorRun_done_eq_completes, hc]
      rw [if_pos h1, ih, sectorRun_credit_true cfg o img s h1,
        List.takeWhile_cons_of_pos hc]
      unfold chunkSum
      simp only [List.map_cons, List.sum_cons]
      omega
    · have h1 : (sectorRun cfg o img s).1 = false := by
        rw [sectorRun_done_eq_completes]
        exact Bool.of_not_eq_true hc
      rw [if_neg (by rw [h1]; exact Bool.false_ne_true),
        sectorRun_credit_false cfg o img s h1,
        List.takeWhile_cons_of_neg (by simpa using hc)]
      simp [chunkSum]

/-- The status returned by the sector loop, characterised by `completes`,
the GO retry loop and the warning events. -/
theorem runSectors_status (cfg : Cfg) (o : Oracle) (img : Image) :
    ∀ (l : List Nat) (warn : Bool) (prog : Nat),
      (runSectors cfg o img l prog warn).1
        = (if l.all (completes cfg o img) then
            (if tryLoop cfg.attempts_cmd o.goOk then
              (if warn || l.any (fun s => !attemptOK cfg o img s 0) then Status.Warning
               else Status.Success)
             else Status.Fail)
           else Status.Fail) := by
  intro l
  induction l with
  | nil =>
    intro warn prog
    unfold runSectors
    simp only [List.all_nil, List.any_nil, Bool.or_false, if_true]
    split_ifs <;> rfl
  | cons s rest ih =>
    intro warn prog
    rw [runSectors_cons]
    by_cases hc : completes cfg o img s = true
    · have h1 : (sectorRun cfg o img s).1 = true := by
        rw [sectorRun_done_eq_completes, hc]
      rw [if_pos h1, ih, sectorRun_warn cfg o img s h1]
      have hall : (s :: rest).all (completes cfg o img) = rest.all (completes cfg o img) := by
        simp [List.all_cons, hc]
      rw [hall]
      by_cases h2 : rest.all (completes cfg o img) = true
      · rw [if_pos h2, if_pos h2]
        by_cases h3 : tryLoop cfg.attempts_cmd o.goOk = true
        · rw [if_pos h3, if_pos h3]
          have hor : (warn || !attemptOK cfg o img s 0
                || rest.any fun t => !attemptOK cfg o img t 0)
              = (warn || (s :: rest).any fun t => !attemptOK cfg o img t 0) := by
            simp [List.any_cons, Bool.or_assoc]
          rw [hor]
        · rw [if_neg (by simpa using h3), if_neg (by simpa using h3)]
      · rw [if_neg (by simpa using h2), if_neg (by simpa using h2)]
    · have h1 : (sectorRun cfg o img s).1 = false := by
        rw [sectorRun_done_eq_completes]
        exact Bool.of_not_eq_true hc
      rw [if_neg (by rw [h1]; exact Bool.false_ne_true)]
      have hall : (s :: rest).all (completes cfg o img) = false := by
        simp [List.all_cons]
        intro h
        exact absurd h hc
      rw [hall]
      simp

/-! ## Claim theorems -/
/-- Claim C8: for every buffer, `getCrc8` computes CRC-8/GSM-A exactly as
the specification words it (and matches the standard check value `0x37` on
the bytes of "123456789"); the transmitted mute and enter-bootloader
frames are byte-identical to the documented layout: `0xAA`, `0x01`, device
id as little-endian u16 (`0xFFFF` broadcast for mute), `0x03`, `0xDA` or
`0xDF`, three zero bytes, then the CRC-8 over the preceding 9 bytes. -/
theorem C8_crc_and_frames :
    (∀ buffer : List Nat, getCrc8 buffer = crc8GsmA buffer) ∧
    getCrc8 [0x31, 0x32, 0x33, 0x34, 0x35, 0x36, 0x37, 0x38, 0x39] = 0x37 ∧
    muteFrame = [0xAA, 0x01, 0xFF, 0xFF, 0x03, 0xDA, 0, 0, 0,
      crc8GsmA [0xAA, 0x01, 0xFF, 0xFF, 0x03, 0xDA, 0, 0, 0]] ∧
    (∀ dev_id : Nat, dev_id ≤ 0xFFFF →
      enterBootloaderFrame dev_id =
        [0xAA, 0x01, dev_id % 256, dev_id / 256, 0x03, 0xDF, 0, 0, 0,
          crc8GsmA [0xAA, 0x01, dev_id % 256, dev_id / 256, 0x03, 0xDF, 0, 0, 0]]) := by
  refine ⟨getCrc8_eq_crc8GsmA, by decide, by decide, ?_⟩
  intro dev_id h
  have h2 : dev_id / 256 % 256 = dev_id / 256 := Nat.mod_eq_of_lt (by omega)
  unfold enterBootloaderFrame packFrame
  rw [h2, getCrc8_eq_crc8GsmA]
  rfl

/-- Witness for C8 at the concrete device id `0x1234`. -/
theorem C8_crc_and_frames_witness :
    (0x1234 : Nat) ≤ 0xFFFF ∧
    enterBootloaderFrame 0x1234 =
      [0xAA, 0x01, 0x1234 % 256, 0x1234 / 256, 0x03, 0xDF, 0, 0, 0,
        crc8GsmA [0xAA, 0x01, 0x1234 % 256, 0x1234 / 256, 0x03, 0xDF, 0, 0, 0]] :=
  ⟨by decide, C8_crc_and_frames.2.2.2 0x1234 (by decide)⟩

/-- Claim C9: the cumulative progress counter left by `program_hex` equals
the total chunk count of the sectors that completed (the prefix of
`used_sectors` up to the first permanently failing sector): every unit
credited during a sector attempt that ends in failure is rolled back
exactly, so failed attempts contribute zero net. -/
theorem C9_progress_rollback (cfg : Cfg) (o : Oracle) (img : Image) :
    (program_hex cfg o img).2
      = chunkSum (img.usedSectors.takeWhile (completes cfg o img)) := by
  unfold program_hex
  rw [runSectors_progress]
  simp

/-- Claim C3 is false as stated: with `attempts_cmd = 2`, the write of the
only non-blank chunk fails on its first attempt and succeeds on the retry
(so a chunk *was* retried), every other step succeeds first try — the
claim demands status `Warning`, yet `program_hex` returns `Success`:
recovered chunk retries never set `warn_detected` (main.py lines 85-99). -/
theorem C3_counterexample :
    retryOracle.writeOk 0 0 0 0 = false ∧
    (tryCount (retryOracle.writeOk 0 0 0) 0 2).2 = true ∧
    (program_hex ⟨1, 2⟩ retryOracle oneByteImage).1 = Status.Success ∧
    Status.Success ≠ Status.Warning := by
  refine ⟨rfl, rfl, by decide, by decide⟩

/-- Claim C3 amended: `program_hex` returns `Fail` iff some processed
sector exhausts all `attempts_erase` attempts (a failed erase command and
a chunk exhausting its `attempts_cmd` inner retries both spoil an
attempt), or — with every sector complete — the final GO loop exhausts
`attempts_cmd`. Otherwise the status is `Warning` iff some sector's first
erase attempt was spoiled before a later attempt succeeded, and `Success`
when every sector completed on its first attempt. A chunk retry that
succeeds within the inner budget does not affect the status. -/
theorem C3_status (cfg : Cfg) (o : Oracle) (img : Image) :
    (program_hex cfg o img).1
      = (if img.usedSectors.all (completes cfg o img) then
          (if tryLoop cfg.attempts_cmd o.goOk then
            (if img.usedSectors.any (fun s => !attemptOK cfg o img s 0) then Status.Warning
             else Status.Success)
           else Status.Fail)
         else Status.Fail) := by
  unfold program_hex
  rw [runSectors_status]
  simp only [Bool.false_or]

/-- Claim C2 is false as stated: the hexfile with a single byte at
`0x08000000` is accepted, sector 0 is in `used_sectors` and has 64 chunks,
yet chunk 0 is `data[0:256]` of a 1-byte array — Python slicing clips at
the array bounds (main.py line 78), so the chunk processed is 1 byte, not
exactly 256. -/
theorem C2_counterexample :
    (imageInit [(0x08000000, 0x00)]).isSome = true ∧
    oneByteImage.usedSectors = [0] ∧
    0 < chunksOf 0 ∧
    (chunkFor oneByteImage 0x08000000 0).length = 1 ∧
    (1 : Nat) ≠ 256 := by
  refine ⟨rfl, rfl, by decide, by decide, by decide⟩

/-- Claim C2 amended: the chunk processed for chunk index `i` of the
sector starting at `start` is the Python slice
`data[start + i*256 - min_addr : start + i*256 - min_addr + 256]`; it is
exactly the 256 bytes at that offset whenever the window lies inside the
data array (otherwise it is clipped, possibly to fewer bytes); an
all-0xFF chunk completes with exactly one progress credit and zero write
and zero verify transactions. -/
theorem C2_chunks (img : Image) (start i ac : Nat) (w v : Nat → Bool) :
    (0 ≤ (start : Int) + (i : Int) * 256 - (img.minAddr : Int) →
      ((start : Int) + (i : Int) * 256 - (img.minAddr : Int)).toNat + 256 ≤ img.data.length →
      chunkFor img start i
        = (img.data.drop ((start : Int) + (i : Int) * 256 - (img.minAddr : Int)).toNat).take 256
      ∧ (chunkFor img start i).length = 256) ∧
    ((chunkFor img start i).all (fun b => b == 0xFF) = true →
      chunkStep ac w v (chunkFor img start i) = ⟨true, 1, 0, 0⟩) := by
  constructor
  · intro h0 hlen
    have e1 : pyBound img.data.length ((start : Int) + (i : Int) * 256 - (img.minAddr : Int))
        = ((start : Int) + (i : Int) * 256 - (img.minAddr : Int)).toNat := by
      unfold pyBound
      rw [if_neg (by omega)]
      omega
    have e2 : pyBound img.data.length
          ((start : Int) + (i : Int) * 256 - (img.minAddr : Int) + 256)
        = ((start : Int) + (i : Int) * 256 - (img.minAddr : Int)).toNat + 256 := by
      unfold pyBound
      rw [if_neg (by omega)]
      omega
    constructor
    · unfold chunkFor pySlice
      rw [e1, e2]
      congr 1
      omega
    · unfold chunkFor pySlice
      rw [e1, e2, List.length_take, List.length_drop]
      omega
  · intro hblank
    unfold chunkStep
    rw [if_pos hblank]

/-- Witness for C2 at a concrete in-bounds window and a concrete blank
chunk: the image with one `0x00` byte at `0x08000000` padded over
`[0x08000000, 0x080001FF]` has a full 256-byte chunk 0, and its (blank)
chunk 1 is credited once without writes or verifies. -/
theorem C2_chunks_witness :
    chunkFor ((imageInit [(0x08000000, 0x00), (0x080001FF, 0xFF)]).getD ⟨[], 0, 0, []⟩)
        0x08000000 0
      = (((imageInit [(0x08000000, 0x00), (0x080001FF, 0xFF)]).getD ⟨[], 0, 0, []⟩).data.drop
          (((0x08000000 : Int) + (0 : Int) * 256
            - (((imageInit [(0x08000000, 0x00), (0x080001FF, 0xFF)]).getD
                ⟨[], 0, 0, []⟩).minAddr : Int)).toNat)).take 256 ∧
    chunkStep 3 (fun _ => false) (fun _ => false)
        (chunkFor oneByteImage 0x08000000 1) = ⟨true, 1, 0, 0⟩ :=
  ⟨((C2_chunks ((imageInit [(0x08000000, 0x00), (0x080001FF, 0xFF)]).getD ⟨[], 0, 0, []⟩)
      0x08000000 0 3 (fun _ => false) (fun _ => false)).1 (by decide) (by decide)).1,
   (C2_chunks oneByteImage 0x08000000 1 3 (fun _ => false) (fun _ => false)).2 (by decide)⟩

/-- Claim C1 is false as stated: a hexfile with bytes only at `0x08000000`
and `0x08020000` is accepted, `[min_addr, max_addr]` intersects sectors
0 through 5, but the code derives `used_sectors` from the addresses the
hexfile actually defines (bootloader.py line 85), giving `[0, 5]`. -/
theorem C1_counterexample :
    (imageInit [(0x08000000, 0x00), (0x08020000, 0x00)]).isSome = true ∧
    gapImage.minAddr = 0x08000000 ∧ gapImage.maxAddr = 0x08020000 ∧
    gapImage.usedSectors = [0, 5] ∧
    sectorsIntersecting 0x08000000 0x08020000 = [0, 1, 2, 3, 4, 5] ∧
    ([0, 5] : List Nat) ≠ [0, 1, 2, 3, 4, 5] := by
  refine ⟨rfl, rfl, rfl, rfl, by decide, by decide⟩

/-- Claim C1 amended: for every accepted image, `used_sectors` is sorted
ascending with no duplicates and contains exactly the sector indices that
hold at least one address defined by the hexfile — not every sector
intersecting `[min_addr, max_addr]`: in-range sectors containing no
defined address are omitted. -/
theorem C1_used_sectors (cells : List (Nat × Nat)) (img : Image)
    (h : imageInit cells = some img) :
    img.usedSectors.Sorted (· ≤ ·) ∧ img.usedSectors.Nodup ∧
    (∀ i : Nat, i ∈ img.usedSectors ↔
      ∃ a ∈ cells.map Prod.fst, sector_for_address a = some i) := by
  have key : img.usedSectors = usedSectorsFor ((cells.map Prod.fst).dedup) := by
    unfold imageInit at h
    cases hd : (cells.map Prod.fst).dedup with
    | nil =>
      rw [hd] at h
      exact absurd h (by simp)
    | cons a rest =>
      rw [hd] at h
      simp only [] at h
      split_ifs at h with h1 h2
      all_goals simp only [Option.some.injEq, reduceCtorEq] at h
      rw [← h]
  rw [key]
  unfold usedSectorsFor
  refine ⟨List.sorted_insertionSort _ _, ?_, ?_⟩
  · exact ((List.perm_insertionSort _ _).nodup_iff).mpr (List.nodup_dedup _)
  · intro i
    rw [(List.perm_insertionSort _ _).mem_iff, List.mem_dedup, List.mem_filterMap]
    constructor
    · rintro ⟨a, ha, hsa⟩
      exact ⟨a, List.mem_dedup.mp ha, hsa⟩
    · rintro ⟨a, ha, hsa⟩
      exact ⟨a, List.mem_dedup.mpr ha, hsa⟩

/-- Witness for C1 on the accepted one-byte image. -/
theorem C1_used_sectors_witness :
    oneByteImage.usedSectors.Sorted (· ≤ ·) ∧ oneByteImage.usedSectors.Nodup ∧
    (∀ i : Nat, i ∈ oneByteImage.usedSectors ↔
      ∃ a ∈ ([(0x08000000, 0x00)] : List (Nat × Nat)).map Prod.fst,
        sector_for_address a = some i) :=
  C1_used_sectors [(0x08000000, 0x00)] oneByteImage rfl

/-- Claim C4 is false as stated: (a) a hexfile whose `min_addr` is 0 —
far below `flash_sectors[0].start` — is *accepted* as long as one defined
address maps to a flash sector (bootloader.py lines 85-89 check only the
used-sector set and `max_addr`); (b) an out-of-range image
(`max_addr = 0x08100000`) is rejected only *after* the port-open event,
since `main` opens the serial port (main.py line 203) before constructing
`STM32BL` (line 205). -/
theorem C4_counterexample :
    (imageInit [(0x00000000, 0x00), (0x08000000, 0x00)]).isSome = true ∧
    (0x00000000 : Nat) < 0x08000000 ∧
    mainPrelude [(0x08000000, 0x00), (0x08100000, 0x00)]
      = [MainEv.portOpen, MainEv.imageRejected] := by
  refine ⟨rfl, by decide, rfl⟩

/-- Claim C4 amended: an accepted image always satisfies
`max_addr ≤ 0x080FFFFF` (the end of the last sector), and a rejected
image aborts `main` after the serial port is opened but before any
serial transmission; `min_addr` below the first sector start does not by
itself cause rejection. -/
theorem C4_bounds (cells : List (Nat × Nat)) :
    (∀ img : Image, imageInit cells = some img → img.maxAddr ≤ 0x080FFFFF) ∧
    (imageInit cells = none →
      mainPrelude cells = [MainEv.portOpen, MainEv.imageRejected] ∧
      MainEv.serialTx ∉ mainPrelude cells) := by
  constructor
  · intro img h
    unfold imageInit at h
    cases hd : (cells.map Prod.fst).dedup with
    | nil =>
      rw [hd] at h
      exact absurd h (by simp)
    | cons a rest =>
      rw [hd] at h
      simp only [] at h
      split_ifs at h with h1 h2
      all_goals simp only [Option.some.injEq, reduceCtorEq] at h
      rw [← h]
      show (a :: rest).foldl Nat.max a ≤ 0x080FFFFF
      omega
  · intro h
    unfold mainPrelude
    rw [h]
    exact ⟨rfl, by decide⟩

/-- Witness for C4: the one-byte image is accepted with
`max_addr ≤ 0x080FFFFF`, and the all-out-of-flash hexfile is rejected
after port open with no transmission. -/
theorem C4_bounds_witness :
    oneByteImage.maxAddr ≤ 0x080FFFFF ∧
    mainPrelude [(0x09000000, 0x00)] = [MainEv.portOpen, MainEv.imageRejected] :=
  ⟨(C4_bounds [(0x08000000, 0x00)]).1 oneByteImage rfl,
   ((C4_bounds [(0x09000000, 0x00)]).2 rfl).1⟩

/-- Claim C5 is false as stated: the measuring loops break at the first
failed iteration (bootloader.py lines 151-152 and 265-266). With
`tune_requests = 3` and responses (nothing, ACK, ACK), 2 of the 3
iterations satisfy the per-iteration success condition, yet the measured
rate is 0, not 2/3. -/
theorem C5_counterexample :
    sync_rate failFirstResp 3 = 0 ∧
    iterOkCount (fun k => syncIterOk (failFirstResp k)) 3 = 2 ∧
    (0 : ℚ) ≠ 2 / 3 := by
  have h0 : prefixCount (fun k => syncIterOk (failFirstResp k)) 0 3 = 0 := by decide
  refine ⟨?_, by decide, by norm_num⟩
  unfold sync_rate
  rw [h0]
  norm_num

/-- Claim C5 amended: the measured rate is the length of the initial
streak of consecutive successful iterations (the loop stops at the first
failure) divided by `tune_requests`, for both sweeps; iteration success
is as claimed — first response byte ACK `0x79` or NACK `0x1F` for the
activation sweep, and a non-empty `get_commands` result containing every
engine opcode for the command sweep. -/
theorem C5_rates (resp : Nat → List Nat) (cmdsAt : Nat → List Nat) (n : Nat) :
    (sync_rate resp n
        = (prefixCount (fun k => syncIterOk (resp k)) 0 n : ℚ) / n ∧
      (∀ k, k < prefixCount (fun k => syncIterOk (resp k)) 0 n →
        syncIterOk (resp k) = true) ∧
      (prefixCount (fun k => syncIterOk (resp k)) 0 n < n →
        syncIterOk (resp (prefixCount (fun k => syncIterOk (resp k)) 0 n)) = false)) ∧
    (tuneRate cmdsAt n
        = (prefixCount (fun k => tuneIterOk (cmdsAt k)) 0 n : ℚ) / n ∧
      (∀ k, k < prefixCount (fun k => tuneIterOk (cmdsAt k)) 0 n →
        tuneIterOk (cmdsAt k) = true) ∧
      (prefixCount (fun k => tuneIterOk (cmdsAt k)) 0 n < n →
        tuneIterOk (cmdsAt (prefixCount (fun k => tuneIterOk (cmdsAt k)) 0 n)) = false)) ∧
    (∀ r : List Nat, syncIterOk r = true ↔
      ∃ b t, r = b :: t ∧ (b = 0x79 ∨ b = 0x1F)) ∧
    (∀ cmds : List Nat, tuneIterOk cmds = true ↔
      (cmds ≠ [] ∧ ∀ c ∈ COMMAND_SET, c ∈ cmds)) := by
  refine ⟨⟨rfl, ?_, ?_⟩, ⟨rfl, ?_, ?_⟩, ?_, ?_⟩
  · intro k hk
    have := prefixCount_ok (fun j => syncIterOk (resp j)) n 0 k hk
    simpa using this
  · intro hlt
    have := prefixCount_stop (fun j => syncIterOk (resp j)) n 0 hlt
    simpa using this
  · intro k hk
    have := prefixCount_ok (fun j => tuneIterOk (cmdsAt j)) n 0 k hk
    simpa using this
  · intro hlt
    have := prefixCount_stop (fun j => tuneIterOk (cmdsAt j)) n 0 hlt
    simpa using this
  · intro r
    cases r with
    | nil => simp [syncIterOk]
    | cons b t =>
      simp only [syncIterOk, Bool.or_eq_true, beq_iff_eq]
      constructor
      · intro hb
        exact ⟨b, t, rfl, hb⟩
      · rintro ⟨b2, t2, he, hb⟩
        cases he
        exact hb
  · intro cmds
    simp [tuneIterOk, List.all_eq_true, List.isEmpty_iff]

/-- Witness for C5 at a concrete response sequence whose streak stops
before `tune_requests`. -/
theorem C5_rates_witness :
    sync_rate failFirstResp 2
      = (prefixCount (fun k => syncIterOk (failFirstResp k)) 0 2 : ℚ) / 2 ∧
    syncIterOk (failFirstResp (prefixCount (fun k => syncIterOk (failFirstResp k)) 0 2))
      = false :=
  ⟨(C5_rates failFirstResp (fun _ => []) 2).1.1,
   (C5_rates failFirstResp (fun _ => []) 2).1.2.2 (by decide)⟩

/-- Claim C6 is false as stated: with initial link timeout `1/10` s and a
sweep that locks the original baud at once, `baud_tune` exits with
timeout `(11·256/57600)·1.3`, not the saved `1/10`: the `finally` block
(bootloader.py line 286) recomputes the timeout from the current
baudrate instead of restoring the saved value. `attempts_cmd` is
restored. -/
theorem C6_counterexample :
    (baud_tune ⟨10, 1 / 10, 57600, 57600⟩ [57600] (fun _ _ => COMMAND_SET) 4 (8 / 10)).1.timeout
      ≠ 1 / 10 ∧
    (baud_tune ⟨10, 1 / 10, 57600, 57600⟩ [57600] (fun _ _ => COMMAND_SET) 4 (8 / 10)).1.attempts_cmd
      = 10 := by
  have hrate : tuneRate ((fun _ _ => COMMAND_SET) (57600 : Nat)) 4 = 1 := by
    unfold tuneRate
    rw [show prefixCount
        (fun k => tuneIterOk (((fun _ _ => COMMAND_SET) (57600 : Nat)) k)) 0 4 = 4 from by decide]
    norm_num
  have hsweep : tuneSweep (fun _ _ => COMMAND_SET) 4 (8 / 10) [57600]
      (tuneSetup ⟨10, 1 / 10, 57600, 57600⟩) none
      = ({ tuneSetup ⟨10, 1 / 10, 57600, 57600⟩ with baudrate := 57600, ser_baud := 57600 },
         Except.ok 57600) := by
    unfold tuneSweep
    rw [if_pos hrate]
  have hT : (baud_tune ⟨10, 1 / 10, 57600, 57600⟩ [57600] (fun _ _ => COMMAND_SET) 4 (8 / 10)).1.timeout
      = 11 * 256 / (((tuneSweep (fun _ _ => COMMAND_SET) 4 (8 / 10) [57600]
          (tuneSetup ⟨10, 1 / 10, 57600, 57600⟩) none).1.baudrate : Nat) : ℚ) * (13 / 10) := rfl
  refine ⟨?_, rfl⟩
  rw [hT, hsweep]
  norm_num [tuneSetup]

/-- Claim C6 amended: during the sweep `attempts_cmd` is 1 and the link
timeout is `(11·30/orig_baud)·1.3`; on exit (every path, including
failure) `attempts_cmd` is restored to its saved value, but the link
timeout is not restored: it is set to `(11·256/baudrate)·1.3` computed
from the baudrate the sweep left selected. -/
theorem C6_tune_restore (st : TuneState) (cands : List Nat)
    (cmdsAt : Nat → Nat → List Nat) (n : Nat) (thr : ℚ) :
    (tuneSetup st).attempts_cmd = 1 ∧
    (tuneSetup st).timeout = 11 * 30 / (st.ser_baud : ℚ) * (13 / 10) ∧
    (baud_tune st cands cmdsAt n thr).1.attempts_cmd = st.attempts_cmd ∧
    (baud_tune st cands cmdsAt n thr).1.timeout
      = 11 * 256 / (((baud_tune st cands cmdsAt n thr).1.baudrate : Nat) : ℚ) * (13 / 10) :=
  ⟨rfl, rfl, rfl, rfl⟩

/-- Claim C7 is false as stated: every step up to the payload succeeds but
the final ACK fails — `get_commands` still returns the non-empty payload,
because the result of the final `_read_ack()` is discarded
(bootloader.py line 308). -/
theorem C7_counterexample :
    get_commands ⟨fun _ => true, [1], [0x31, 0x05], false⟩ = [0x31, 0x05] ∧
    ([0x31, 0x05] : List Nat) ≠ [] := by
  refine ⟨rfl, by decide⟩

/-- Claim C7 amended: `get_commands` returns a non-empty result iff the
GET command ACK succeeds, the length byte arrives, and the payload read
returns exactly `length + 1` bytes — and then the result is the payload;
the final ACK is read but its outcome is ignored, so a failed final ACK
does not empty the result. -/
theorem C7_get_commands (e : GetEnv) :
    (get_commands e ≠ [] ↔
      (cmd e.cmdAck = true ∧ e.lenByte ≠ [] ∧ e.payload.length = e.lenByte.headD 0 + 1)) ∧
    (get_commands e ≠ [] → get_commands e = e.payload) := by
  unfold get_commands
  by_cases hc : cmd e.cmdAck = false
  · simp [hc]
  · have hc2 : cmd e.cmdAck = true := by
      cases hcc : cmd e.cmdAck
      · exact absurd hcc hc
      · rfl
    simp only [hc2]
    cases hl : e.lenByte with
    | nil => simp
    | cons n t =>
      by_cases hp : e.payload.length = n + 1
      · have hne : e.payload ≠ [] := by
          intro hnil
          rw [hnil] at hp
          simp at hp
        simp [hp, hne]
      · simp [hp]

/-- Witness for C7 on a fully successful transaction. -/
theorem C7_get_commands_witness :
    get_commands ⟨fun _ => true, [1], [0x31, 0x05], true⟩ ≠ [] ∧
    get_commands ⟨fun _ => true, [1], [0x31, 0x05], true⟩ = [0x31, 0x05] := by
  have h := C7_get_commands ⟨fun _ => true, [1], [0x31, 0x05], true⟩
  have hne : get_commands ⟨fun _ => true, [1], [0x31, 0x05], true⟩ ≠ [] :=
    h.1.mpr ⟨by decide, by decide, by decide⟩
  exact ⟨hne, h.2 hne⟩

/-- Claim C10 is false as stated: when the WRITE command ACK never comes,
`write_mem` returns `False` before touching `data` (bootloader.py lines
343-344), even for `len(data) = 0` — no exception is raised. -/
theorem C10_counterexample :
    write_mem ⟨fun _ => false, true, true⟩ 0x08000000 [] = Except.ok false ∧
    ([] : List Nat).length = 0 := by
  exact ⟨rfl, rfl⟩

/-- Claim C10 amended: `write_mem` raises (the `ValueError` from
`bytes([len(data) - 1])`, line 352) exactly when the command ACK and the
address ACK both succeed and `len(data)` is 0 or above 256 (for
`addr < 2^32`); when an earlier step fails it returns `False` for every
`data`; under `1 ≤ len(data) ≤ 256` it never raises and returns the
conjunction of the protocol-step outcomes. -/
theorem C10_write_mem (e : WriteEnv) (addr : Nat) (data : List Nat)
    (haddr : addr < 2 ^ 32) :
    ((∃ err, write_mem e addr data = .error err) ↔
      (cmd e.cmdAck = true ∧ e.addrAck = true ∧
        (data.length = 0 ∨ data.length > 256))) ∧
    (1 ≤ data.length → data.length ≤ 256 →
      write_mem e addr data = .ok (cmd e.cmdAck && e.addrAck && e.finalAck)) := by
  have hifaddr : write_mem e addr data
      = (if cmd e.cmdAck = false then Except.ok false
         else if e.addrAck = false then Except.ok false
         else if data.length = 0 ∨ data.length > 256 then Except.error PyErr.valueError
         else Except.ok e.finalAck) := by
    unfold write_mem
    rw [if_neg (show ¬ addr ≥ 2 ^ 32 from by omega)]
  rw [hifaddr]
  by_cases hc : cmd e.cmdAck = false
  · simp [hc]
  · have hc2 : cmd e.cmdAck = true := by
      cases hcc : cmd e.cmdAck
      · exact absurd hcc hc
      · rfl
    by_cases ha : e.addrAck = false
    · simp [hc2, ha]
    · have ha2 : e.addrAck = true := by
        cases hab : e.addrAck
        · exact absurd hab ha
        · rfl
      by_cases hl : data.length = 0 ∨ data.length > 256
      · have hl2 : data = [] ∨ 256 < data.length := by
          rcases hl with h | h
          · left
            exact List.length_eq_zero.mp h
          · right
            omega
        constructor
        · simp [hc2, ha2, hl2]
        · intro h1 h2
          exact absurd hl (by omega)
      · have hl2 : ¬ (data = [] ∨ 256 < data.length) := by
          intro hcon
          apply hl
          rcases hcon with h | h
          · left
            rw [h]
            rfl
          · right
            omega
        simp [hc2, ha2, hl2]

/-- Witness for C10 on an in-range one-byte write with all ACKs. -/
theorem C10_write_mem_witness :
    write_mem ⟨fun _ => true, true, true⟩ 0x08000000 [0xAB] = Except.ok true :=
  (C10_write_mem ⟨fun _ => true, true, true⟩ 0x08000000 [0xAB] (by norm_num)).2
    (by decide) (by decide)
